/-
Verification of txtSearchPro (src/search.py).

The file shallowly embeds the engine of `search.py`:
  * `Stats`                 — the `self.stats` dictionary of `TextSearchEngine`
  * `finditer`              — `re.finditer(re.escape(query).encode('utf-8'), mm)`
                              (a literal byte search: `re.escape` makes the query
                              match as an exact byte sequence, non-overlapping,
                              left to right, resuming at `match.end()`)
  * `searchFileMatches`     — the loop body of `TextSearchEngine.search_file`
  * `search_file`           — `TextSearchEngine.search_file` with the engine's
                              stats passed explicitly (the `self.stats['errors'] += 1`
                              in its `except` branch becomes a returned new state)
  * `aggStep`               — the body of the completion loop in `run_search`
                              (lines 158-166)
  * `save_results`          — `TextSearchEngine.save_results`, returning
                              `none` when nothing is written and otherwise the
                              written file name and contents
  * `run_search`            — `TextSearchEngine.run_search`; prints are dropped,
                              file reads are part of each `ScanTarget`
                              (`read` is the result of opening+reading the file:
                              its bytes, or the raised exception's message).

Machine-level notes.  Python's `max(0, start-50)` on ints equals truncated
subtraction on `Nat`.  `mm[a:b]` on a memory map of length n with 0 ≤ a, b is
the byte range [a, min b n), i.e. `(l.take b).drop a`.  Bytes are modelled as
`Nat` (values < 256 in any real file, nothing below depends on the bound).
-/
import Mathlib

/-- The `self.stats` dictionary of `TextSearchEngine`, in declaration order. -/
structure Stats where
  files_processed : Nat
  matches_found : Nat
  total_size : Nat
  errors : Nat
deriving DecidableEq

/-- The stats dictionary as created in `TextSearchEngine.__init__` (all zero). -/
def initStats : Stats := ⟨0, 0, 0, 0⟩

/-- One match dictionary appended by `search_file`:
`{'file': ..., 'context': ..., 'position': ...}`. -/
structure MatchRecord where
  file : String
  context : String
  position : Nat
deriving DecidableEq

/-- One entry of the `files` list built by `get_folder_stats`
(`{'path': ..., 'size': ...}`), together with what opening and reading the
file at scan time yields: its bytes, or the message of the raised exception. -/
structure ScanTarget where
  path : String
  size : Nat
  read : Except String (List Nat)

instance : DecidableEq (Except String (List Nat)) := fun a b =>
  match a, b with
  | Except.ok x, Except.ok y =>
    if h : x = y then isTrue (by rw [h]) else isFalse (by intro hc; cases hc; exact h rfl)
  | Except.error x, Except.error y =>
    if h : x = y then isTrue (by rw [h]) else isFalse (by intro hc; cases hc; exact h rfl)
  | Except.ok _, Except.error _ => isFalse (by intro hc; cases hc)
  | Except.error _, Except.ok _ => isFalse (by intro hc; cases hc)

instance : DecidableEq ScanTarget := fun a b =>
  match a, b with
  | ⟨p, s, r⟩, ⟨q, t, u⟩ =>
    if h : p = q ∧ s = t ∧ r = u then
      isTrue (by obtain ⟨h1, h2, h3⟩ := h; rw [h1, h2, h3])
    else isFalse (by intro hc; cases hc; exact h ⟨rfl, rfl, rfl⟩)

/-- The tuple `(path, matches, error)` returned by `search_file`
(`error = ""` on success). -/
structure ScanOutcome where
  path : String
  matchList : List MatchRecord
  error : String
deriving DecidableEq

/-- Characters stripped by Python's `str.strip()` (`str.isspace` code points). -/
def pyIsSpace (c : Char) : Bool :=
  ([9, 10, 11, 12, 13, 28, 29, 30, 31, 32, 0x85, 0xA0, 0x1680,
    0x2000, 0x2001, 0x2002, 0x2003, 0x2004, 0x2005, 0x2006, 0x2007,
    0x2008, 0x2009, 0x200A, 0x2028, 0x2029, 0x202F, 0x205F, 0x3000] : List Nat).contains c.toNat

/-- Python `str.strip()` on a character list: drop whitespace at both ends. -/
def pyStrip (l : List Char) : List Char :=
  ((l.dropWhile pyIsSpace).reverse.dropWhile pyIsSpace).reverse

/-- Python `str.strip()`. -/
def pyStripString (s : String) : String := String.mk (pyStrip s.data)

/-- Python slicing `l[a:b]` for `0 ≤ a, b`: clamps both ends at the length. -/
def pySlice (l : List Nat) (a b : Nat) : List Nat := (l.take b).drop a

/-- UTF-8 encoding of one scalar value (Python `str.encode('utf-8')`, per char). -/
def utf8EncodeChar (c : Char) : List Nat :=
  let n := c.toNat
  if n < 0x80 then [n]
  else if n < 0x800 then [0xC0 + n / 64, 0x80 + n % 64]
  else if n < 0x10000 then [0xE0 + n / 4096, 0x80 + (n / 64) % 64, 0x80 + n % 64]
  else [0xF0 + n / 262144, 0x80 + (n / 4096) % 64, 0x80 + (n / 64) % 64, 0x80 + n % 64]

/-- Python `str.encode('utf-8')`: the byte sequence of a string. -/
def utf8Encode (s : String) : List Nat := (s.data.map utf8EncodeChar).flatten

/-- A UTF-8 continuation byte. -/
def contByte (b : Nat) : Bool := 0x80 ≤ b && b ≤ 0xBF

/-- U+FFFD, the replacement character. -/
def replChar : Char := Char.ofNat 0xFFFD

/-- Python `bytes.decode('utf-8', errors='replace')`: strict UTF-8 decoding
(overlongs, surrogates and values above U+10FFFF are ill-formed) where each
maximal ill-formed subpart is replaced by one U+FFFD and decoding resumes at
the first unconsumed byte. -/
def utf8DecodeReplace : List Nat → List Char
  | [] => []
  | b :: rest =>
    if b ≤ 0x7F then Char.ofNat b :: utf8DecodeReplace rest
    else if 0xC2 ≤ b && b ≤ 0xDF then
      match rest with
      | [] => [replChar]
      | c1 :: rest1 =>
        if contByte c1 then
          Char.ofNat ((b - 0xC0) * 64 + (c1 - 0x80)) :: utf8DecodeReplace rest1
        else replChar :: utf8DecodeReplace (c1 :: rest1)
    else if 0xE0 ≤ b && b ≤ 0xEF then
      match rest with
      | [] => [replChar]
      | c1 :: rest1 =>
        if (if b = 0xE0 then 0xA0 else 0x80) ≤ c1 && c1 ≤ (if b = 0xED then 0x9F else 0xBF) then
          match rest1 with
          | [] => [replChar]
          | c2 :: rest2 =>
            if contByte c2 then
              Char.ofNat ((b - 0xE0) * 4096 + (c1 - 0x80) * 64 + (c2 - 0x80)) ::
                utf8DecodeReplace rest2
            else replChar :: utf8DecodeReplace (c2 :: rest2)
        else replChar :: utf8DecodeReplace (c1 :: rest1)
    else if 0xF0 ≤ b && b ≤ 0xF4 then
      match rest with
      | [] => [replChar]
      | c1 :: rest1 =>
        if (if b = 0xF0 then 0x90 else 0x80) ≤ c1 && c1 ≤ (if b = 0xF4 then 0x8F else 0xBF) then
          match rest1 with
          | [] => [replChar]
          | c2 :: rest2 =>
            if contByte c2 then
              match rest2 with
              | [] => [replChar]
              | c3 :: rest3 =>
                if contByte c3 then
                  Char.ofNat ((b - 0xF0) * 262144 + (c1 - 0x80) * 4096 +
                      (c2 - 0x80) * 64 + (c3 - 0x80)) :: utf8DecodeReplace rest3
                else replChar :: utf8DecodeReplace (c3 :: rest3)
            else replChar :: utf8DecodeReplace (c2 :: rest2)
        else replChar :: utf8DecodeReplace (c1 :: rest1)
    else replChar :: utf8DecodeReplace rest

/-- `pat` occurs in `data` at byte offset `p`. -/
def occursAt (data pat : List Nat) (p : Nat) : Bool := pat.isPrefixOf (data.drop p)

/-- The scanning loop of `re.finditer(pat, data)` for a literal byte pattern,
from position `i`: at each position at most one match starts; after a match the
scan resumes at `match.end()` (one past, for an empty pattern).  `fuel` bounds
the recursion; every caller passes enough for the whole scan. -/
def finditerAux (data pat : List Nat) : Nat → Nat → List Nat
  | 0, _ => []
  | fuel + 1, i =>
    if i ≤ data.length then
      if pat.isPrefixOf (data.drop i) then
        i :: finditerAux data pat fuel (i + max 1 pat.length)
      else
        finditerAux data pat fuel (i + 1)
    else []

/-- All match start positions of `re.finditer(pat, data)` for a literal
byte pattern `pat`, in scan order. -/
def finditer (data pat : List Nat) : List Nat :=
  finditerAux data pat (data.length + 1) 0

/-- The match loop of `search_file` on the bytes `data` of one file:
for every `finditer` match, record the path, the context window
`mm[max(0, start-50) : end+50]` decoded with `errors='replace'` and
`.strip()`-ped, and the match start position. -/
def searchFileMatches (path : String) (data : List Nat) (q : String) : List MatchRecord :=
  let pat := utf8Encode q
  (finditer data pat).map fun s =>
    { file := path
      context := String.mk (pyStrip (utf8DecodeReplace (pySlice data (s - 50) (s + pat.length + 50))))
      position := s }

/-- `TextSearchEngine.search_file`: on a successful read, the engine state is
untouched and `(path, matches, "")` is returned; if opening or reading raises,
the `except` branch increments `self.stats['errors']` in place and returns
`(path, [], str(e))`. -/
def search_file (stats : Stats) (q : String) (t : ScanTarget) : Stats × ScanOutcome :=
  match t.read with
  | Except.ok data => (stats, { path := t.path, matchList := searchFileMatches t.path data q, error := "" })
  | Except.error e => ({ stats with errors := stats.errors + 1 }, { path := t.path, matchList := [], error := e })

/-- The body of the `as_completed` loop in `run_search` (lines 158-166):
`files_processed += 1` always; when the outcome's match list is non-empty,
`matches_found += len(matches)` and `all_matches.extend(matches)`.
(The warning print for a non-empty error string has no state effect.) -/
def aggStep (acc : Stats × List MatchRecord) (o : ScanOutcome) : Stats × List MatchRecord :=
  let stats1 : Stats := { acc.1 with files_processed := acc.1.files_processed + 1 }
  if o.matchList.isEmpty then (stats1, acc.2)
  else ({ stats1 with matches_found := stats1.matches_found + o.matchList.length }, acc.2 ++ o.matchList)

/-- The net effect of one target's scan followed by the consumption of its
completed future by the aggregation loop. -/
def processTarget (acc : Stats × List MatchRecord) (q : String) (t : ScanTarget) : Stats × List MatchRecord :=
  let r := search_file acc.1 q t
  aggStep (r.1, acc.2) r.2

/-- The character class of `re.sub(r'[\\/*?:"<>|]', '_', ...)` in `save_results`. -/
def forbiddenChars : List Char := ['\\', '/', '*', '?', ':', '\"', '<', '>', '|']

/-- `safe_query`: every character of the class is replaced by `_`, then the
result is truncated to 50 characters (`[:50]`). -/
def sanitizeQuery (q : String) : String :=
  String.mk ((q.data.map fun c => if c ∈ forbiddenChars then '_' else c).take 50)

/-- The file name `f"results_{safe_query}.txt"` (inside `Config.RESULTS_DIR`). -/
def resultFileName (q : String) : String := "results_" ++ sanitizeQuery q ++ ".txt"

/-- The separator line `'='*50`. -/
def eqLine : String := String.mk (List.replicate 50 '=')

/-- One per-match block written by `save_results`. -/
def matchBlock (m : MatchRecord) : String :=
  "\nФайл: " ++ m.file ++ "\nПозиция: " ++ toString m.position ++ "\n" ++
    "Контекст: " ++ m.context ++ "\n" ++ eqLine ++ "\n"

/-- The full text written by `save_results`. -/
def resultsBody (q : String) (ms : List MatchRecord) : String :=
  "Результаты поиска: '" ++ q ++ "'\n" ++
    "Всего совпадений: " ++ toString ms.length ++ "\n" ++ eqLine ++ "\n" ++
    String.join (ms.map matchBlock)

/-- `TextSearchEngine.save_results`: returns `none` when nothing is written
(the early `return` on an empty match list), otherwise the name and contents
of the written results file. -/
def save_results (q : String) (ms : List MatchRecord) : Option (String × String) :=
  if ms.isEmpty then none
  else some (resultFileName q, resultsBody q ms)

/-- Scanning every target (the submitted futures), threading the engine state
through the scanners' own error increments and collecting the outcomes. -/
def scanAll (stats : Stats) (q : String) (ts : List ScanTarget) : Stats × List ScanOutcome :=
  ts.foldl (fun acc t =>
    let r := search_file acc.1 q t
    (r.1, acc.2 ++ [r.2])) (stats, [])

/-- `sum of target sizes`, as accumulated by `get_folder_stats`. -/
def sumSizes (ts : List ScanTarget) : Nat := (ts.map fun t => t.size).sum

/-- What one call of `TextSearchEngine.run_search` leaves behind:
the engine's stats, the local `all_matches`, the outcomes of the scans that
were performed, and what `save_results` wrote. -/
structure RunResult where
  stats : Stats
  all_matches : List MatchRecord
  scanned : List ScanOutcome
  saved : Option (String × String)
deriving DecidableEq

/-- `TextSearchEngine.run_search`: `get_folder_stats` assigns
`stats['total_size']`; an empty file list returns before the query prompt; the
query is `input().strip()` and an empty one returns before any scanning;
otherwise every file is scanned, completions are aggregated by `aggStep`, and
`save_results` runs on `all_matches`.  Scans and aggregation interleave
through the worker pool in the source; their net state effect equals this
sequential composition because scanning touches only `errors` and aggregation
only `files_processed`/`matches_found`. -/
def run_search (stats0 : Stats) (targets : List ScanTarget) (rawQuery : String) : RunResult :=
  let stats1 : Stats := { stats0 with total_size := sumSizes targets }
  if targets.isEmpty then { stats := stats1, all_matches := [], scanned := [], saved := none }
  else
    let q := pyStripString rawQuery
    if q = "" then { stats := stats1, all_matches := [], scanned := [], saved := none }
    else
      let sc := scanAll stats1 q targets
      let ag := sc.2.foldl aggStep (sc.1, [])
      { stats := ag.1, all_matches := ag.2, scanned := sc.2, saved := save_results q ag.2 }

/-! ### Properties of the literal scan (`finditer`) -/

theorem occursAt_add_le (data pat : List Nat) (hpat : 1 ≤ pat.length) (p : Nat)
    (h : occursAt data pat p = true) : p + pat.length ≤ data.length := by
  have h2 : pat.length ≤ (data.drop p).length :=
    (List.isPrefixOf_iff_prefix.mp h).length_le
  simp only [List.length_drop] at h2
  omega

theorem finditerAux_sound (data pat : List Nat) :
    ∀ fuel i p, p ∈ finditerAux data pat fuel i →
      i ≤ p ∧ p ≤ data.length ∧ occursAt data pat p = true := by
  intro fuel
  induction fuel with
  | zero => intro i p h; simp [finditerAux] at h
  | succ n ih =>
    intro i p h
    simp only [finditerAux] at h
    split_ifs at h with hle hpre
    · rcases List.mem_cons.mp h with rfl | h2
      · exact ⟨Nat.le_refl _, hle, hpre⟩
      · obtain ⟨h1, h2a, h3⟩ := ih _ _ h2
        refine ⟨?_, h2a, h3⟩
        have : 1 ≤ max 1 pat.length := Nat.le_max_left _ _
        omega
    · obtain ⟨h1, h2a, h3⟩ := ih _ _ h
      exact ⟨by omega, h2a, h3⟩
    · simp at h

theorem finditerAux_pairwise (data pat : List Nat) :
    ∀ fuel i, (finditerAux data pat fuel i).Pairwise
      (fun a b => a + max 1 pat.length ≤ b) := by
  intro fuel
  induction fuel with
  | zero => intro i; simp [finditerAux]
  | succ n ih =>
    intro i
    simp only [finditerAux]
    split_ifs with hle hpre
    · refine List.Pairwise.cons ?_ (ih _)
      intro b hb
      have := (finditerAux_sound data pat n (i + max 1 pat.length) b hb).1
      omega
    · exact ih _
    · simp

theorem finditerAux_complete (data pat : List Nat) (hpat : 1 ≤ pat.length) :
    ∀ fuel i, data.length + 1 ≤ i + fuel →
      ∀ p, i ≤ p → occursAt data pat p = true →
        ∃ s ∈ finditerAux data pat fuel i, s ≤ p ∧ p < s + pat.length := by
  intro fuel
  induction fuel with
  | zero =>
    intro i hfuel p hip hocc
    have := occursAt_add_le data pat hpat p hocc
    omega
  | succ n ih =>
    intro i hfuel p hip hocc
    have hbound := occursAt_add_le data pat hpat p hocc
    have hmax : max 1 pat.length = pat.length := Nat.max_eq_right hpat
    simp only [finditerAux]
    split_ifs with hle hpre
    · by_cases hcase : p < i + pat.length
      · exact ⟨i, List.mem_cons_self _ _, hip, hcase⟩
      · obtain ⟨s, hs, h1, h2⟩ :=
          ih (i + max 1 pat.length) (by omega) p (by omega) hocc
        exact ⟨s, List.mem_cons_of_mem _ hs, h1, h2⟩
    · have hne : p ≠ i := by
        rintro rfl
        exact hpre hocc
      exact ih (i + 1) (by omega) p (by omega) hocc
    · omega

theorem finditerAux_max (data pat : List Nat) (hpat : 1 ≤ pat.length) :
    ∀ fuel i, data.length + 1 ≤ i + fuel →
      ∀ S : List Nat,
        (∀ p ∈ S, i ≤ p ∧ occursAt data pat p = true) →
        S.Pairwise (fun a b => a + pat.length ≤ b) →
        S.length ≤ (finditerAux data pat fuel i).length := by
  intro fuel
  induction fuel with
  | zero =>
    intro i hfuel S hS hSp
    cases S with
    | nil => simp
    | cons p tl =>
      have h0 := hS p (List.mem_cons_self _ _)
      have := occursAt_add_le data pat hpat p h0.2
      omega
  | succ n ih =>
    intro i hfuel S hS hSp
    have hmax : max 1 pat.length = pat.length := Nat.max_eq_right hpat
    simp only [finditerAux]
    split_ifs with hle hpre
    · cases S with
      | nil => simp
      | cons p tl =>
        simp only [List.length_cons]
        apply Nat.succ_le_succ
        apply ih (i + max 1 pat.length) (by omega) tl ?_ (List.Pairwise.of_cons hSp)
        intro p' hp'
        have h1 := hS p' (List.mem_cons_of_mem _ hp')
        have h2 := List.rel_of_pairwise_cons hSp hp'
        have h0 := hS p (List.mem_cons_self _ _)
        exact ⟨by omega, h1.2⟩
    · apply ih (i + 1) (by omega) S ?_ hSp
      intro p hp
      have h1 := hS p hp
      have hne : p ≠ i := by
        rintro rfl
        exact hpre h1.2
      exact ⟨by omega, h1.2⟩
    · cases S with
      | nil => simp
      | cons p tl =>
        have h0 := hS p (List.mem_cons_self _ _)
        have := occursAt_add_le data pat hpat p h0.2
        omega

theorem utf8EncodeChar_ne_nil (c : Char) : utf8EncodeChar c ≠ [] := by
  simp only [utf8EncodeChar]
  split_ifs <;> simp

theorem utf8Encode_length_pos (q : String) (hq : q ≠ "") : 1 ≤ (utf8Encode q).length := by
  cases q with
  | mk l =>
    cases l with
    | nil => exact absurd rfl hq
    | cons c cs =>
      simp only [utf8Encode, List.map_cons, List.flatten_cons, List.length_append]
      have := utf8EncodeChar_ne_nil c
      have : 0 < (utf8EncodeChar c).length := List.length_pos.mpr this
      omega

theorem searchFileMatches_positions (path : String) (data : List Nat) (q : String) :
    (searchFileMatches path data q).map (fun m => m.position) = finditer data (utf8Encode q) := by
  simp only [searchFileMatches, List.map_map]
  exact List.map_id _

theorem searchFileMatches_length (path : String) (data : List Nat) (q : String) :
    (searchFileMatches path data q).length = (finditer data (utf8Encode q)).length := by
  simp [searchFileMatches]

/-- Python's clamped slice `l[a:b]` is the window from `a` to `min b l.length`. -/
theorem pySlice_eq_window (l : List Nat) (a b : Nat) :
    pySlice l a b = (l.drop a).take (min b l.length - a) := by
  rw [pySlice, List.drop_take]
  rw [List.take_eq_take]
  simp only [List.length_drop]
  omega

/-! ### Properties of the aggregation loop (`aggStep`) -/

theorem aggStep_fst_files (acc : Stats × List MatchRecord) (o : ScanOutcome) :
    (aggStep acc o).1.files_processed = acc.1.files_processed + 1 := by
  simp only [aggStep]
  split <;> rfl

theorem aggStep_fst_matches (acc : Stats × List MatchRecord) (o : ScanOutcome) :
    (aggStep acc o).1.matches_found = acc.1.matches_found + o.matchList.length := by
  simp only [aggStep]
  split
  · next h => simp [List.isEmpty_iff.mp h]
  · rfl

theorem aggStep_fst_errors (acc : Stats × List MatchRecord) (o : ScanOutcome) :
    (aggStep acc o).1.errors = acc.1.errors := by
  simp only [aggStep]
  split <;> rfl

theorem aggStep_fst_total (acc : Stats × List MatchRecord) (o : ScanOutcome) :
    (aggStep acc o).1.total_size = acc.1.total_size := by
  simp only [aggStep]
  split <;> rfl

theorem aggStep_snd (acc : Stats × List MatchRecord) (o : ScanOutcome) :
    (aggStep acc o).2 = acc.2 ++ o.matchList := by
  simp only [aggStep]
  split
  · next h => simp [List.isEmpty_iff.mp h]
  · rfl

theorem agg_foldl_files (l : List ScanOutcome) :
    ∀ ac : Stats × List MatchRecord,
      (l.foldl aggStep ac).1.files_processed = ac.1.files_processed + l.length := by
  induction l with
  | nil => intro ac; simp
  | cons o tl ih =>
    intro ac
    rw [List.foldl_cons, ih, aggStep_fst_files]
    simp only [List.length_cons]
    omega

theorem agg_foldl_matches (l : List ScanOutcome) :
    ∀ ac : Stats × List MatchRecord,
      (l.foldl aggStep ac).1.matches_found =
        ac.1.matches_found + (l.map fun o => o.matchList.length).sum := by
  induction l with
  | nil => intro ac; simp
  | cons o tl ih =>
    intro ac
    rw [List.foldl_cons, ih, aggStep_fst_matches]
    simp only [List.map_cons, List.sum_cons]
    omega

theorem agg_foldl_errors (l : List ScanOutcome) :
    ∀ ac : Stats × List MatchRecord, (l.foldl aggStep ac).1.errors = ac.1.errors := by
  induction l with
  | nil => intro ac; simp
  | cons o tl ih =>
    intro ac
    rw [List.foldl_cons, ih, aggStep_fst_errors]

theorem agg_foldl_total (l : List ScanOutcome) :
    ∀ ac : Stats × List MatchRecord, (l.foldl aggStep ac).1.total_size = ac.1.total_size := by
  induction l with
  | nil => intro ac; simp
  | cons o tl ih =>
    intro ac
    rw [List.foldl_cons, ih, aggStep_fst_total]

theorem agg_foldl_snd (l : List ScanOutcome) :
    ∀ ac : Stats × List MatchRecord,
      (l.foldl aggStep ac).2 = ac.2 ++ l.flatMap (fun o => o.matchList) := by
  induction l with
  | nil => intro ac; simp
  | cons o tl ih =>
    intro ac
    rw [List.foldl_cons, ih, aggStep_snd]
    simp [List.flatMap_cons]

theorem stats_ext {a b : Stats} (h1 : a.files_processed = b.files_processed)
    (h2 : a.matches_found = b.matches_found) (h3 : a.total_size = b.total_size)
    (h4 : a.errors = b.errors) : a = b := by
  cases a
  cases b
  simp_all

/-! ### Concrete inputs used by witnesses and counterexamples -/

/-- A 3-byte file `a.txt` holding `foo`, readable. -/
def targetA : ScanTarget := { path := "a.txt", size := 3, read := Except.ok (utf8Encode "foo") }

/-- A 3-byte file `b.txt` holding `foo`, readable. -/
def targetB : ScanTarget := { path := "b.txt", size := 3, read := Except.ok (utf8Encode "foo") }

/-- An unreadable file `c.txt` (simulated permission error). -/
def targetC : ScanTarget := { path := "c.txt", size := 0, read := Except.error "Permission denied" }

/-- First run of an interactive session on a fresh engine: one target, query `foo`. -/
def sessionRun1 : RunResult := run_search initStats [targetA] "foo"

/-- Second run of the same session: the engine object (and its stats dict)
persists, so this run starts from `sessionRun1.stats`. -/
def sessionRun2 : RunResult := run_search sessionRun1.stats [targetB] "foo"

/-- C1: the claim says `RunStatistics` is zeroed at the start of every run and
`filesProcessed` equals the number of targets of that run on every loop
iteration.  The code zeroes the stats dict only in `TextSearchEngine.__init__`,
and `main` constructs the engine once, before the interactive loop: after a
second one-target run, `files_processed` is 2, not 1. -/
theorem files_processed_not_reset_across_runs :
    sessionRun1.stats.files_processed = 1
    ∧ sessionRun2.stats.files_processed = 2
    ∧ [targetB].length = 1 := by decide

/-- C6: the claim says `matchesFound` after a run equals the sum of match
counts over that run's success outcomes.  On the second run of a session the
counter still holds the first run's matches: it reads 2 while the second run's
outcomes contain a single match. -/
theorem matches_found_not_per_run :
    sessionRun2.stats.matches_found = 2
    ∧ ((sessionRun2.scanned.filter fun o => o.error == "").map
        fun o => o.matchList.length).sum = 1 := by decide

/-- C2 counterexample: the scanner itself mutates engine-level state.  On a
failing target, `search_file` increments `self.stats['errors']` in place
(line 106), so the engine state it hands back differs from the one it was
given — the aggregation loop is not the only mutator. -/
theorem scanner_mutates_engine_state :
    (search_file initStats "foo" targetC).1 ≠ initStats
    ∧ (search_file initStats "foo" targetC).1.errors = initStats.errors + 1 := by decide

/-- C2 as amended: `search_file` never touches `files_processed`,
`matches_found` or `total_size` (those are only updated by the aggregation
loop), and it leaves `errors` unchanged on a successful read; but on a failing
read the scanner itself increments `errors` in place. -/
theorem search_file_state_effect (stats : Stats) (q : String) (t : ScanTarget) :
    (search_file stats q t).1.files_processed = stats.files_processed
    ∧ (search_file stats q t).1.matches_found = stats.matches_found
    ∧ (search_file stats q t).1.total_size = stats.total_size
    ∧ (search_file stats q t).1.errors =
        stats.errors + (match t.read with | Except.ok _ => 0 | Except.error _ => 1) := by
  cases h : t.read <;> simp [search_file, h]

/-- C5: a failing open/read never escapes `search_file`: the scanner returns
`(path, [], message)`, and the net effect of that target on the run is
`errors + 1`, `files_processed + 1`, `matches_found` untouched and no match
added to `all_matches`. -/
theorem scan_failure_counted (stats : Stats) (all : List MatchRecord) (q : String)
    (t : ScanTarget) (msg : String) (h : t.read = Except.error msg) :
    (search_file stats q t).2 = { path := t.path, matchList := [], error := msg }
    ∧ processTarget (stats, all) q t =
        ({ stats with errors := stats.errors + 1,
                      files_processed := stats.files_processed + 1 }, all) := by
  constructor
  · simp [search_file, h]
  · simp [processTarget, search_file, h, aggStep]

theorem scan_failure_counted_witness :
    (search_file initStats "foo" targetC).2 =
      { path := targetC.path, matchList := [], error := "Permission denied" }
    ∧ processTarget (initStats, []) "foo" targetC =
        ({ initStats with errors := initStats.errors + 1,
                          files_processed := initStats.files_processed + 1 }, []) :=
  scan_failure_counted initStats [] "foo" targetC "Permission denied" (by decide)

/-- C3: for a non-empty query the scan is a literal search for the query's
exact byte sequence: every reported position is a genuine occurrence of the
encoded query; positions are strictly ascending with gaps of at least the
pattern length (non-overlapping, advancing past each match); every occurrence
in the file starts inside some reported match (nothing is skipped); and no
family of pairwise non-overlapping occurrences is larger than the reported
one — so a file with exactly k non-overlapping occurrences yields exactly k
records. -/
theorem scan_literal_nonoverlapping (path : String) (data : List Nat) (q : String)
    (hq : q ≠ "") :
    ((searchFileMatches path data q).map fun m => m.position).Pairwise
        (fun a b => a + (utf8Encode q).length ≤ b)
    ∧ (∀ p ∈ (searchFileMatches path data q).map fun m => m.position,
        occursAt data (utf8Encode q) p = true)
    ∧ (∀ p, occursAt data (utf8Encode q) p = true →
        ∃ s ∈ (searchFileMatches path data q).map fun m => m.position,
          s ≤ p ∧ p < s + (utf8Encode q).length)
    ∧ ∀ S : List Nat, (∀ p ∈ S, occursAt data (utf8Encode q) p = true) →
        S.Pairwise (fun a b => a + (utf8Encode q).length ≤ b) →
        S.length ≤ (searchFileMatches path data q).length := by
  have hpat : 1 ≤ (utf8Encode q).length := utf8Encode_length_pos q hq
  have hmax : max 1 (utf8Encode q).length = (utf8Encode q).length := Nat.max_eq_right hpat
  rw [searchFileMatches_positions]
  refine ⟨?_, ?_, ?_, ?_⟩
  · have := finditerAux_pairwise data (utf8Encode q) (data.length + 1) 0
    rw [hmax] at this
    exact this
  · intro p hp
    exact (finditerAux_sound data (utf8Encode q) _ _ p hp).2.2
  · intro p hocc
    exact finditerAux_complete data (utf8Encode q) hpat (data.length + 1) 0
      (by omega) p (Nat.zero_le p) hocc
  · intro S hS hSp
    rw [searchFileMatches_length]
    exact finditerAux_max data (utf8Encode q) hpat (data.length + 1) 0 (by omega) S
      (fun p hp => ⟨Nat.zero_le p, hS p hp⟩) hSp

theorem scan_literal_nonoverlapping_witness :
    ((searchFileMatches "a.txt" (utf8Encode "foo bar foo") "foo").map fun m => m.position).Pairwise
        (fun a b => a + (utf8Encode "foo").length ≤ b)
    ∧ (∀ p ∈ (searchFileMatches "a.txt" (utf8Encode "foo bar foo") "foo").map fun m => m.position,
        occursAt (utf8Encode "foo bar foo") (utf8Encode "foo") p = true)
    ∧ (∀ p, occursAt (utf8Encode "foo bar foo") (utf8Encode "foo") p = true →
        ∃ s ∈ (searchFileMatches "a.txt" (utf8Encode "foo bar foo") "foo").map fun m => m.position,
          s ≤ p ∧ p < s + (utf8Encode "foo").length)
    ∧ ∀ S : List Nat, (∀ p ∈ S, occursAt (utf8Encode "foo bar foo") (utf8Encode "foo") p = true) →
        S.Pairwise (fun a b => a + (utf8Encode "foo").length ≤ b) →
        S.length ≤ (searchFileMatches "a.txt" (utf8Encode "foo bar foo") "foo").length :=
  scan_literal_nonoverlapping "a.txt" (utf8Encode "foo bar foo") "foo" (by decide)

/-- C4: every match's context is exactly the byte window from
`max(0, start-50)` to `min(end+50, fileLength)` — up to 50 bytes before the
match start and up to 50 past its end, clipped at both file boundaries with no
out-of-bounds access — decoded leniently (invalid sequences replaced) and
whitespace-trimmed.  A match starting at or before offset 50 gives a window
starting at 0 (in particular one at offset 0); a match whose end lies within
50 bytes of end-of-file gives a window ending exactly at the file length. -/
theorem context_window_clipped (path : String) (data : List Nat) (q : String)
    (m : MatchRecord) (hm : m ∈ searchFileMatches path data q) :
    m.position + (utf8Encode q).length ≤ data.length
    ∧ m.context = String.mk (pyStrip (utf8DecodeReplace
        ((data.drop (m.position - 50)).take
          (min (m.position + (utf8Encode q).length + 50) data.length - (m.position - 50)))))
    ∧ (m.position ≤ 50 → m.position - 50 = 0)
    ∧ min (m.position + (utf8Encode q).length + 50) data.length ≤ data.length
    ∧ (data.length ≤ m.position + (utf8Encode q).length + 50 →
        min (m.position + (utf8Encode q).length + 50) data.length = data.length) := by
  simp only [searchFileMatches, List.mem_map] at hm
  obtain ⟨s, hs, rfl⟩ := hm
  have hsound := finditerAux_sound data (utf8Encode q) _ _ s hs
  have hlen : (utf8Encode q).length ≤ (data.drop s).length :=
    (List.isPrefixOf_iff_prefix.mp hsound.2.2).length_le
  simp only [List.length_drop] at hlen
  dsimp only
  refine ⟨by omega, ?_, by omega, Nat.min_le_right _ _, by omega⟩
  rw [pySlice_eq_window]

/-- The second match of `foo` in `a.txt` (`foo bar foo`): starts at byte 8,
ends at end-of-file; its 50-byte window is clipped at both file boundaries. -/
def mFoo8 : MatchRecord := { file := "a.txt", context := "foo bar foo", position := 8 }

theorem context_window_clipped_witness :
    mFoo8.position + (utf8Encode "foo").length ≤ (utf8Encode "foo bar foo").length
    ∧ mFoo8.context = String.mk (pyStrip (utf8DecodeReplace
        (((utf8Encode "foo bar foo").drop (mFoo8.position - 50)).take
          (min (mFoo8.position + (utf8Encode "foo").length + 50) (utf8Encode "foo bar foo").length
            - (mFoo8.position - 50)))))
    ∧ (mFoo8.position ≤ 50 → mFoo8.position - 50 = 0)
    ∧ min (mFoo8.position + (utf8Encode "foo").length + 50) (utf8Encode "foo bar foo").length
        ≤ (utf8Encode "foo bar foo").length
    ∧ ((utf8Encode "foo bar foo").length ≤ mFoo8.position + (utf8Encode "foo").length + 50 →
        min (mFoo8.position + (utf8Encode "foo").length + 50) (utf8Encode "foo bar foo").length
          = (utf8Encode "foo bar foo").length) :=
  context_window_clipped "a.txt" (utf8Encode "foo bar foo") "foo" mFoo8 (by decide)

/-- C7: aggregation is order-independent.  Folding the completion-loop body
over any permutation of the same outcomes yields identical statistics
(`files_processed`, `matches_found`, and `errors`/`total_size`, which the
loop never touches), a match collection equal as an unordered collection, and
each outcome's own match list — position-ascending per C3 — kept contiguous
and in order inside the collection. -/
theorem aggregation_order_independent (s : Stats) (acc : List MatchRecord)
    (l1 l2 : List ScanOutcome) (h : l1.Perm l2) :
    (l1.foldl aggStep (s, acc)).1 = (l2.foldl aggStep (s, acc)).1
    ∧ ((l1.foldl aggStep (s, acc)).2).Perm ((l2.foldl aggStep (s, acc)).2)
    ∧ ∀ o ∈ l1, ∃ pre post,
        (l1.foldl aggStep (s, acc)).2 = pre ++ o.matchList ++ post := by
  refine ⟨?_, ?_, ?_⟩
  · apply stats_ext
    · rw [agg_foldl_files, agg_foldl_files, h.length_eq]
    · rw [agg_foldl_matches, agg_foldl_matches,
        (h.map fun o => o.matchList.length).sum_eq]
    · rw [agg_foldl_total, agg_foldl_total]
    · rw [agg_foldl_errors, agg_foldl_errors]
  · rw [agg_foldl_snd, agg_foldl_snd]
    exact (h.flatMap_right fun o => o.matchList).append_left acc
  · intro o ho
    obtain ⟨u, v, rfl⟩ := List.append_of_mem ho
    rw [agg_foldl_snd]
    refine ⟨acc ++ u.flatMap fun o => o.matchList, v.flatMap fun o => o.matchList, ?_⟩
    simp [List.flatMap_append, List.flatMap_cons, List.append_assoc]

/-- A success outcome for `a.txt` with its two `foo` matches. -/
def outcomeA : ScanOutcome :=
  { path := "a.txt"
    matchList := [{ file := "a.txt", context := "foo bar foo", position := 0 }, mFoo8]
    error := "" }

/-- The failure outcome for `c.txt`. -/
def outcomeC : ScanOutcome := { path := "c.txt", matchList := [], error := "Permission denied" }

theorem aggregation_order_independent_witness :
    ([outcomeA, outcomeC].foldl aggStep (initStats, [])).1 =
      ([outcomeC, outcomeA].foldl aggStep (initStats, [])).1
    ∧ (([outcomeA, outcomeC].foldl aggStep (initStats, [])).2).Perm
        (([outcomeC, outcomeA].foldl aggStep (initStats, [])).2)
    ∧ ∀ o ∈ [outcomeA, outcomeC], ∃ pre post,
        ([outcomeA, outcomeC].foldl aggStep (initStats, [])).2 = pre ++ o.matchList ++ post :=
  aggregation_order_independent initStats [] [outcomeA, outcomeC] [outcomeC, outcomeA]
    (List.Perm.swap outcomeC outcomeA [])

/-- C8: a query that is empty after `.strip()` is rejected before any
scanning: `run_search` returns right after the prompt, so no scan happens
(`scanned = []`, no worker is launched), no result file is written, and the
statistics are untouched except for `total_size`, which `get_folder_stats`
already assigned during enumeration — in particular zero matches and zero
errors are added.  (The same value is returned when the target list is empty,
which is why the equation needs no hypothesis on `targets`.) -/
theorem empty_query_rejected (stats : Stats) (targets : List ScanTarget) (raw : String)
    (h : pyStripString raw = "") :
    run_search stats targets raw =
      { stats := { stats with total_size := sumSizes targets },
        all_matches := [], scanned := [], saved := none } := by
  by_cases ht : targets.isEmpty <;> simp [run_search, ht, h]

theorem empty_query_rejected_witness :
    pyStripString "   " = ""
    ∧ run_search initStats [targetA] "   " =
        { stats := { initStats with total_size := sumSizes [targetA] },
          all_matches := [], scanned := [], saved := none } :=
  ⟨by decide, empty_query_rejected initStats [targetA] "   " (by decide)⟩

/-- Follows the spec's words ("strip characters unsafe for filenames"): a
character that no filename may contain on any supported platform.  NUL is
rejected in file names by POSIX and Windows alike, and Python's `open` itself
raises `ValueError` on an embedded null byte. -/
def invalidFilenameChar (c : Char) : Bool := c = Char.ofNat 0

/-- C9 counterexample: not every character unsafe for filenames is replaced.
`re.sub(r'[\\/*?:"<>|]', '_', query)` touches only that nine-character class:
a query containing NUL — a character invalid in filenames everywhere — passes
through sanitization unchanged, and the derived output file name still
contains it, so it is not a valid writable filename. -/
theorem sanitize_misses_nul :
    invalidFilenameChar (Char.ofNat 0) = true
    ∧ sanitizeQuery (String.mk ['a', Char.ofNat 0, 'b']) = String.mk ['a', Char.ofNat 0, 'b']
    ∧ (Char.ofNat 0) ∈ (resultFileName (String.mk ['a', Char.ofNat 0, 'b'])).data := by decide

/-- C9 as amended: sanitization replaces exactly the characters of the class
`\ / * ? : " < > |` with `_` (making queries like `a/b:c` yield valid
identifiers) and truncates to 50 characters, so no character of that class
survives into the identifier; characters outside the class — e.g. NUL — are
not replaced. -/
theorem sanitize_replaces_class (q : String) :
    (∀ c ∈ (sanitizeQuery q).data, c ∉ forbiddenChars)
    ∧ (sanitizeQuery q).data.length ≤ 50 := by
  constructor
  · intro c hc
    simp only [sanitizeQuery] at hc
    have hc2 : c ∈ q.data.map fun c => if c ∈ forbiddenChars then '_' else c :=
      List.mem_of_mem_take hc
    obtain ⟨a, ha, rfl⟩ := List.mem_map.mp hc2
    by_cases h : a ∈ forbiddenChars
    · simp only [h, if_pos]
      decide
    · rw [if_neg h]
      exact h
  · simp only [sanitizeQuery]
    exact List.length_take_le _ _

theorem sanitize_replaces_class_witness :
    sanitizeQuery "a/b:c" = "a_b_c"
    ∧ 'a' ∉ forbiddenChars
    ∧ (sanitizeQuery "a/b:c").data.length ≤ 50 :=
  ⟨by decide, (sanitize_replaces_class "a/b:c").1 'a' (by decide),
    (sanitize_replaces_class "a/b:c").2⟩

/-- C10: a run that finds zero matches writes nothing: `save_results` returns
immediately on an empty match list (`if not matches: return`), so no results
file is created and the results directory is left unchanged; at run level,
whenever `all_matches` ends up empty nothing is saved. -/
theorem no_write_on_zero_matches :
    (∀ q, save_results q [] = none)
    ∧ ∀ (stats : Stats) (targets : List ScanTarget) (raw : String),
        (run_search stats targets raw).all_matches = [] →
        (run_search stats targets raw).saved = none := by
  constructor
  · intro q
    rfl
  · intro stats targets raw h
    by_cases ht : targets.isEmpty
    · simp [run_search, ht]
    · by_cases hq : pyStripString raw = ""
      · simp [run_search, ht, hq]
      · simp only [run_search] at h ⊢
        rw [if_neg ht, if_neg hq] at h ⊢
        dsimp only at h ⊢
        rw [h]
        rfl

theorem no_write_on_zero_matches_witness :
    save_results "foo" [] = none
    ∧ (run_search initStats [] "x").all_matches = []
    ∧ (run_search initStats [] "x").saved = none :=
  ⟨no_write_on_zero_matches.1 "foo", by decide,
    no_write_on_zero_matches.2 initStats [] "x" (by decide)⟩
